import Mathlib

/-!
Verification of the reaction-consistency and pagination subsystem of the
ddsm-back-end repository: a shallow embedding of the Mongo-backed document
store (`src/db/posts.js`, `src/db/users.js`) and of the HTTP controllers
(`src/controllers/posts.js`), with theorems settling the specification's
claims about counters, cascades and pagination.

The store is modelled as lists of records; Mongo primitives are embedded as:
`find?` for `findById` / `findOne` (first match), `filter`-removal for
`deleteMany`, first-match erasure for `deleteOne` / `findOneAndDelete` /
`findByIdAndDelete`, and first-match in-place update for
`findByIdAndUpdate` / fetch-mutate-`save`. `skip(n).limit(m)` is
`drop n` then `take m`; a `sort` in a Mongo query chain is applied by the
server before skip/limit regardless of chain order. JavaScript numbers
carrying counters are modelled as `Int` (they may go negative); ids and
timestamps as `Nat`. A JavaScript `TypeError` on a null document (and the
resulting request failure) is modelled as `Option.none`. The page parameter
arrives through `Number(req.params.page)` and may be fractional, so the
controllers take it as a rational: `Number.isInteger(q)` is `q.den = 1`.
-/

/-- A `User` document (`userSchema` in `src/db/users.js`), restricted to the
fields the core reads: identity, denormalized profile fields and the
`profile_is_archived` flag. -/
structure UserRec where
  user_id : Nat
  username : String
  first_name : String
  last_name : String
  profile_picture : Option String
  profile_is_archived : Bool
deriving Repr, DecidableEq

/-- A `Post` document (`postSchema` in `src/db/posts.js`). -/
structure Post where
  post_id : Nat
  post_owner_id : Nat
  post_content : String
  post_timestamp : Nat
  post_is_archived : Bool
  post_like_count : Int
  post_comment_count : Int
deriving Repr, DecidableEq

/-- A `Comment` document (`commentSchema` in `src/db/posts.js`). -/
structure Comment where
  comment_id : Nat
  post_id : Nat
  comment_owner_id : Nat
  comment_content : String
  comment_timestamp : Nat
deriving Repr, DecidableEq

/-- A `Like` document (`likeSchema` in `src/db/posts.js`). -/
structure Like where
  like_id : Nat
  post_id : Nat
  like_owner_id : Nat
  like_timestamp : Nat
deriving Repr, DecidableEq

/-- The document database: the four collections backing the core. -/
structure DB where
  users : List UserRec
  posts : List Post
  comments : List Comment
  likes : List Like
deriving Repr, DecidableEq

/-- Erase the first element satisfying `pred` (Mongo `deleteOne`,
`findOneAndDelete`, `findByIdAndDelete`). -/
def eraseFirstP {α : Type} (pred : α → Bool) : List α → List α
  | [] => []
  | x :: xs => if pred x then xs else x :: eraseFirstP pred xs

/-- `const itemsToFetch = 5` in `src/db/posts.js`. -/
def itemsToFetch : Nat := 5

/-- `.skip((page - 1) * itemsToFetch).limit(itemsToFetch)`. -/
def paginate {α : Type} (l : List α) (page : Nat) : List α :=
  (l.drop ((page - 1) * itemsToFetch)).take itemsToFetch

/-- Add `d` to `post_comment_count` of the first post whose id matches
(`PostsModel.findByIdAndUpdate(id, \x7b $inc: ... \x7d)`, and the
fetch-mutate-save pattern, both of which touch exactly one document). -/
def incCommentCount (id : Nat) (d : Int) : List Post → List Post
  | [] => []
  | p :: ps =>
    if p.post_id = id then
      { p with post_comment_count := p.post_comment_count + d } :: ps
    else
      p :: incCommentCount id d ps

/-- Add `d` to `post_like_count` of the first post whose id matches. -/
def incLikeCount (id : Nat) (d : Int) : List Post → List Post
  | [] => []
  | p :: ps =>
    if p.post_id = id then
      { p with post_like_count := p.post_like_count + d } :: ps
    else
      p :: incLikeCount id d ps

/-- `getPostById` in `src/db/posts.js`. -/
def getPostById (db : DB) (id : Nat) : Option Post :=
  db.posts.find? (fun p => p.post_id = id)

/-- `getPostsByUserId` in `src/db/posts.js`: the user's posts, paginated. -/
def getPostsByUserId (db : DB) (user_id : Nat) (page : Nat) : List Post :=
  paginate (db.posts.filter (fun p => p.post_owner_id = user_id)) page

/-- `archivePost` in `src/db/posts.js`: set `post_is_archived` on the
fetched post document and save it back. -/
def archivePost (db : DB) (id : Nat) : DB :=
  { db with posts := db.posts.map (fun p =>
      if p.post_id = id then { p with post_is_archived := true } else p) }

/-- `unarchivePost` in `src/db/posts.js`. -/
def unarchivePost (db : DB) (id : Nat) : DB :=
  { db with posts := db.posts.map (fun p =>
      if p.post_id = id then { p with post_is_archived := false } else p) }

/-- `delPost` in `src/db/posts.js`: `deleteMany` the comments and likes whose
`post_id` matches, then `findByIdAndDelete` the post; returns the deleted
post (or `none`) together with the new store. -/
def delPost (db : DB) (id : Nat) : Option Post × DB :=
  (db.posts.find? (fun p => p.post_id = id),
   { db with
      comments := db.comments.filter (fun c => ¬ c.post_id = id)
      likes := db.likes.filter (fun l => ¬ l.post_id = id)
      posts := eraseFirstP (fun p => p.post_id = id) db.posts })

/-- `createNewComment` in `src/db/posts.js`: save the new comment, then
`$inc` the parent post's `post_comment_count` by 1 (`findByIdAndUpdate` is a
no-op when the parent id matches nothing). -/
def createNewComment (db : DB) (c : Comment) : DB :=
  { db with
      comments := db.comments ++ [c]
      posts := incCommentCount c.post_id 1 db.posts }

/-- `delComment` in `src/db/posts.js`: `findOneAndDelete` by comment id;
when a comment was found and removed, `$inc` its parent's counter by -1,
otherwise do nothing. Returns the deleted comment (or `none`). -/
def delComment (db : DB) (id : Nat) : Option Comment × DB :=
  match db.comments.find? (fun c => c.comment_id = id) with
  | none => (none, db)
  | some c =>
    (some c,
     { db with
        comments := eraseFirstP (fun x => x.comment_id = id) db.comments
        posts := incCommentCount c.post_id (-1) db.posts })

/-- `getCommentsForPost` in `src/db/posts.js`: the post's comments,
paginated. -/
def getCommentsForPost (db : DB) (postId : Nat) (page : Nat) : List Comment :=
  paginate (db.comments.filter (fun c => c.post_id = postId)) page

/-- `createNewLike` in `src/db/posts.js`: if a like for `(post_id, owner)`
exists, answer 200 and change nothing; otherwise fetch the post, bump its
`post_like_count`, save, create the like record, answer 201. A missing post
is a null dereference (`post.post_like_count`), i.e. a thrown `TypeError`:
`none`. `freshId` and `ts` stand for the id and timestamp Mongo assigns. -/
def createNewLike (db : DB) (post_id like_owner_id freshId ts : Nat) :
    Option (Nat × DB) :=
  if (db.likes.find? (fun l =>
        l.post_id = post_id ∧ l.like_owner_id = like_owner_id)).isSome then
    some (200, db)
  else
    match db.posts.find? (fun p => p.post_id = post_id) with
    | none => none
    | some _ =>
      some (201,
        { db with
            posts := incLikeCount post_id 1 db.posts
            likes := db.likes ++ [⟨freshId, post_id, like_owner_id, ts⟩] })

/-- `delLike` in `src/db/posts.js`: if no like for `(post_id, owner)`
exists, answer 404 and change nothing; otherwise decrement the post's
counter, save, `deleteOne` the like by its id, answer 200. -/
def delLike (db : DB) (post_id like_owner_id : Nat) : Option (Nat × DB) :=
  match db.likes.find? (fun l =>
      l.post_id = post_id ∧ l.like_owner_id = like_owner_id) with
  | none => some (404, db)
  | some l =>
    match db.posts.find? (fun p => p.post_id = post_id) with
    | none => none
    | some _ =>
      some (200,
        { db with
            posts := incLikeCount post_id (-1) db.posts
            likes := eraseFirstP (fun x => x.like_id = l.like_id) db.likes })

/-- `getPostLikes` in `src/db/posts.js`: the post's likes, paginated. -/
def getPostLikes (db : DB) (postId : Nat) (page : Nat) : List Like :=
  paginate (db.likes.filter (fun l => l.post_id = postId)) page

/-- `deleteAllPosts` in `src/db/posts.js` (lines 174-198): for every comment
owned by the user, decrement the parent post's comment counter (the lookup
`PostsModel.find(\x7b_id: ...\x7d)` touching the first match; a missing
parent makes the async callback reject without stopping the rest); likewise
for every like owned by the user and the like counter; then `deleteMany` the
posts, comments and likes OWNED BY the user. Comments and likes placed by
other users on the user's own posts are not touched. -/
def deleteAllPosts (db : DB) (id : Nat) : DB :=
  let posts1 := (db.comments.filter (fun c => c.comment_owner_id = id)).foldl
    (fun ps c => incCommentCount c.post_id (-1) ps) db.posts
  let posts2 := (db.likes.filter (fun l => l.like_owner_id = id)).foldl
    (fun ps l => incLikeCount l.post_id (-1) ps) posts1
  { db with
      posts := posts2.filter (fun p => ¬ p.post_owner_id = id)
      comments := db.comments.filter (fun c => ¬ c.comment_owner_id = id)
      likes := db.likes.filter (fun l => ¬ l.like_owner_id = id) }

/-- The relation ordering the feed: descending `post_timestamp`
(`.sort(\x7b post_timestamp: -1 \x7d)` in `fetchPosts`). -/
def postTimeGE (p q : Post) : Prop := q.post_timestamp ≤ p.post_timestamp

instance : DecidableRel postTimeGE := fun p q =>
  inferInstanceAs (Decidable (q.post_timestamp ≤ p.post_timestamp))

instance : IsTotal Post postTimeGE :=
  ⟨fun p q => Nat.le_total q.post_timestamp p.post_timestamp⟩

instance : IsTrans Post postTimeGE :=
  ⟨fun _ _ _ h1 h2 => Nat.le_trans h2 h1⟩

/-- `fetchPosts` in `src/db/posts.js`: all posts sorted by timestamp
descending (the server applies the sort before skip/limit), paginated, each
`populate`d with its owner (`none` when the owner id resolves to no user). -/
def fetchPosts (db : DB) (page : Nat) : List (Post × Option UserRec) :=
  (paginate (List.insertionSort postTimeGE db.posts) page).map
    (fun p => (p, db.users.find? (fun u => u.user_id = p.post_owner_id)))

/-- Result of `deleteProfile` in `src/db/users.js`. -/
structure DeleteProfileResult where
  status : Nat
  message : Option String
deriving Repr, DecidableEq

/-- `deleteProfile` in `src/db/users.js` (lines 182-201): fetch the user (a
missing user is a null dereference, `none`); if the profile is not archived,
answer 400 with a message and change nothing; otherwise run
`deleteAllPosts(id)`, `deleteOne` the user, answer 200. -/
def deleteProfile (db : DB) (id : Nat) : Option (DeleteProfileResult × DB) :=
  match db.users.find? (fun u => u.user_id = id) with
  | none => none
  | some user =>
    if user.profile_is_archived then
      let db1 := deleteAllPosts db id
      some (⟨200, none⟩,
        { db1 with users := eraseFirstP (fun u => u.user_id = id) db1.users })
    else
      some (⟨400, some "Cannot delete a profile that is not archived"⟩, db)

/-! ## Controller layer (`src/controllers/posts.js`) -/

/-- Errors a controller can answer with: `InvalidPage` is the 400 response
"Page number must be integer greater than or equal to 1."; `serverError` is
the 500 response produced when a thrown error reaches the catch block. -/
inductive CtrlError where
  | invalidPage
  | serverError
deriving Repr, DecidableEq

/-- The page guard shared by `getFeed`, `getCommsForPost`, `getLikesForPost`
and `getPostByUsername`: `Number(req.params.page)` must satisfy
`Number.isInteger(page)` and `page > 0`. -/
def pageOk (q : ℚ) : Bool := q.den = 1 ∧ 0 < q

/-- The natural page number once the guard has passed. -/
def pageNat (q : ℚ) : Nat := q.num.toNat

/-- One row built by `getReactionAndUserData` in `src/db/users.js`: the
reacting user's data, plus the comment's content and timestamp when the
reactions are comments. -/
structure ReactionUserData where
  username : String
  profile_pic : Option String
  first_name : String
  last_name : String
  content : Option String
  timestamp : Option Nat
deriving Repr, DecidableEq

/-- `getReactionAndUserData` on `type: 'comments'`: look up each comment's
owner (`UserModel.findById`; a missing owner is a null dereference, i.e. a
thrown error) and pair the user's data with the comment's content and
timestamp. -/
def commentUserData (db : DB) : List Comment → Option (List ReactionUserData)
  | [] => some []
  | c :: rest =>
    match db.users.find? (fun u => u.user_id = c.comment_owner_id) with
    | none => none
    | some u =>
      (commentUserData db rest).map
        (fun l => ⟨u.username, u.profile_picture, u.first_name, u.last_name,
                   some c.comment_content, some c.comment_timestamp⟩ :: l)

/-- `getReactionAndUserData` on `type: 'likes'`: the reacting users' data,
with no comment content. -/
def likeUserData (db : DB) : List Like → Option (List ReactionUserData)
  | [] => some []
  | l :: rest =>
    match db.users.find? (fun u => u.user_id = l.like_owner_id) with
    | none => none
    | some u =>
      (likeUserData db rest).map
        (fun ls => ⟨u.username, u.profile_picture, u.first_name, u.last_name,
                    none, none⟩ :: ls)

/-- `getCommsForPost` in `src/controllers/posts.js` (lines 186-205): reject
an invalid page with 400 before any storage access, otherwise page through
the post's comments and join the owners' data. -/
def getCommsForPost (db : DB) (post_id : Nat) (q : ℚ) :
    Except CtrlError (List ReactionUserData) :=
  if pageOk q then
    match commentUserData db (getCommentsForPost db post_id (pageNat q)) with
    | none => .error .serverError
    | some rows => .ok rows
  else
    .error .invalidPage

/-- `getLikesForPost` in `src/controllers/posts.js` (lines 166-185). -/
def getLikesForPost (db : DB) (post_id : Nat) (q : ℚ) :
    Except CtrlError (List ReactionUserData) :=
  if pageOk q then
    match likeUserData db (getPostLikes db post_id (pageNat q)) with
    | none => .error .serverError
    | some rows => .ok rows
  else
    .error .invalidPage

/-- `getPostByUsername` in `src/controllers/posts.js` (lines 149-164): the
requested user is resolved by middleware; reject an invalid page with 400,
otherwise return the user's posts, paginated. -/
def getPostByUsername (db : DB) (requested_user_id : Nat) (q : ℚ) :
    Except CtrlError (List Post) :=
  if pageOk q then
    .ok (getPostsByUserId db requested_user_id (pageNat q))
  else
    .error .invalidPage

/-- One item of the global feed as formatted by `getFeed`. -/
structure FeedItem where
  username : String
  profilePic : Option String
  timestamp : Nat
  likeCount : Int
  commentCount : Int
  content : String
  id : Nat
deriving Repr, DecidableEq

/-- The `formattedPosts` map inside `getFeed`: denormalize the populated
owner's username and profile picture into each item; a post whose owner was
not populated makes `post.post_owner_id.username` throw (`none`). -/
def formatPosts : List (Post × Option UserRec) → Option (List FeedItem)
  | [] => some []
  | (_, none) :: _ => none
  | (p, some u) :: rest =>
    (formatPosts rest).map
      (fun items =>
        ⟨u.username, u.profile_picture, p.post_timestamp, p.post_like_count,
         p.post_comment_count, p.post_content, p.post_id⟩ :: items)

/-- `getFeed` in `src/controllers/posts.js` (lines 249-276): reject an
invalid page with 400 before any storage access, otherwise fetch the sorted
page of posts and format it. -/
def getFeed (db : DB) (q : ℚ) : Except CtrlError (List FeedItem) :=
  if pageOk q then
    match formatPosts (fetchPosts db (pageNat q)) with
    | none => .error .serverError
    | some items => .ok items
  else
    .error .invalidPage

/-- `deletePost` in `src/controllers/posts.js` (lines 106-115): run
`delPost` (which never throws here) and report 200
"Post deleted successfully" without inspecting its result. -/
def deletePostCtrl (db : DB) (post_id : Nat) : Nat × DB :=
  (200, (delPost db post_id).2)

/-! ## Operation sequences for the comment-counter invariant -/

/-- One comment-level operation: a creation (`createNewComment`) or a
deletion (`delComment`). -/
inductive CommentOp where
  | create (c : Comment)
  | delete (id : Nat)
deriving Repr, DecidableEq

/-- Apply one comment operation to the store. -/
def applyCommentOp (db : DB) : CommentOp → DB
  | .create c => createNewComment db c
  | .delete id => (delComment db id).2

/-- Apply a sequence of comment operations, first to last. -/
def applyCommentOps (db : DB) (ops : List CommentOp) : DB :=
  ops.foldl applyCommentOp db

/-- The counter invariant of the spec: every post's `post_comment_count`
equals the number of comment records referencing it. -/
def commentCountsConsistent (db : DB) : Prop :=
  ∀ p ∈ db.posts,
    p.post_comment_count =
      ((db.comments.filter (fun c => c.post_id = p.post_id)).length : Int)

instance (db : DB) : Decidable (commentCountsConsistent db) :=
  inferInstanceAs (Decidable (∀ p ∈ db.posts, _))

/-- Post ids are pairwise distinct (Mongo `_id` uniqueness). -/
def postIdsNodup (db : DB) : Prop := (db.posts.map Post.post_id).Nodup

instance (db : DB) : Decidable (postIdsNodup db) :=
  inferInstanceAs (Decidable (List.Nodup _))

/-! ## Helper lemmas -/

theorem eraseFirstP_of_forall_not {α : Type} (pred : α → Bool) (l : List α)
    (h : ∀ x ∈ l, ¬ pred x) : eraseFirstP pred l = l := by
  induction l with
  | nil => rfl
  | cons x xs ih =>
    have hx : pred x = false := by simpa using h x (by simp)
    simp [eraseFirstP, hx, ih fun y hy => h y (by simp [hy])]

theorem mem_eraseFirstP_of_not_pred {α : Type} (pred : α → Bool) (l : List α)
    (x : α) (hx : x ∈ l) (hpx : ¬ pred x) : x ∈ eraseFirstP pred l := by
  induction l with
  | nil => simp at hx
  | cons y ys ih =>
    by_cases hy : pred y
    · simp only [eraseFirstP, if_pos hy]
      rcases List.mem_cons.mp hx with rfl | hmem
      · exact absurd hy hpx
      · exact hmem
    · simp only [eraseFirstP, if_neg hy]
      rcases List.mem_cons.mp hx with rfl | hmem
      · exact List.mem_cons_self x _
      · exact List.mem_cons_of_mem y (ih hmem)

/-- C3: when a Like for the (post, user) pair already exists, `createNewLike`
answers 200 (not 201), inserts nothing, and leaves the store — in particular
the post's `post_like_count` — unchanged. -/
theorem C3_duplicate_like (db : DB) (pid uid freshId ts : Nat)
    (h : (db.likes.find? (fun l =>
        l.post_id = pid ∧ l.like_owner_id = uid)).isSome) :
    createNewLike db pid uid freshId ts = some (200, db) := by
  unfold createNewLike
  rw [if_pos h]

/-- C3 witness: a store where user 2 already likes post 1. -/
theorem C3_duplicate_like_witness :
    createNewLike
      ⟨[], [⟨1, 1, "p", 0, false, 1, 0⟩], [], [⟨7, 1, 2, 0⟩]⟩ 1 2 99 5 =
      some (200, ⟨[], [⟨1, 1, "p", 0, false, 1, 0⟩], [], [⟨7, 1, 2, 0⟩]⟩) :=
  C3_duplicate_like _ 1 2 99 5 (by decide)

/-- C4: `deleteProfile` on a user whose `profile_is_archived` is false
answers status 400 with the message and leaves every collection of the
store unchanged. -/
theorem C4_not_archived (db : DB) (uid : Nat) (u : UserRec)
    (hu : db.users.find? (fun x => x.user_id = uid) = some u)
    (ha : u.profile_is_archived = false) :
    deleteProfile db uid =
      some (⟨400, some "Cannot delete a profile that is not archived"⟩, db) := by
  simp [deleteProfile, hu, ha]

/-- C4 witness: deleting the profile of the non-archived user 1 changes
nothing and answers 400. -/
theorem C4_not_archived_witness :
    deleteProfile
      ⟨[⟨1, "a", "f", "l", none, false⟩], [⟨1, 1, "p", 0, false, 0, 0⟩], [], []⟩ 1 =
      some (⟨400, some "Cannot delete a profile that is not archived"⟩,
        ⟨[⟨1, "a", "f", "l", none, false⟩], [⟨1, 1, "p", 0, false, 0, 0⟩], [], []⟩) :=
  C4_not_archived _ 1 ⟨1, "a", "f", "l", none, false⟩ (by decide) rfl

/-- Two posts agreeing on every field except possibly `post_is_archived`. -/
def sameExceptArchived (p q : Post) : Prop :=
  q.post_id = p.post_id ∧ q.post_owner_id = p.post_owner_id ∧
  q.post_content = p.post_content ∧ q.post_timestamp = p.post_timestamp ∧
  q.post_like_count = p.post_like_count ∧
  q.post_comment_count = p.post_comment_count

theorem find?_map_setArchived (ps : List Post) (id : Nat) (b : Bool) :
    (ps.map (fun p =>
        if p.post_id = id then { p with post_is_archived := b } else p)).find?
        (fun p => p.post_id = id) =
      (ps.find? (fun p => p.post_id = id)).map
        (fun p => { p with post_is_archived := b }) := by
  induction ps with
  | nil => rfl
  | cons p rest ih =>
    by_cases hp : p.post_id = id
    · simp [List.find?_cons, hp]
    · simp [List.find?_cons, hp, ih]

theorem forall₂_sameExceptArchived_map (ps : List Post) (f : Post → Post)
    (hf : ∀ p, sameExceptArchived p (f p)) :
    List.Forall₂ sameExceptArchived ps (ps.map f) := by
  induction ps with
  | nil => exact List.Forall₂.nil
  | cons p rest ih => exact List.Forall₂.cons (hf p) ih

/-- C9: `archivePost` sets `post_is_archived` of the targeted post to true
and `unarchivePost` sets it to false; both leave the users, comments and
likes collections unchanged and preserve every other field of every post. -/
theorem C9_archive_frame (db : DB) (id : Nat) :
    (archivePost db id).users = db.users ∧
    (archivePost db id).comments = db.comments ∧
    (archivePost db id).likes = db.likes ∧
    (unarchivePost db id).users = db.users ∧
    (unarchivePost db id).comments = db.comments ∧
    (unarchivePost db id).likes = db.likes ∧
    List.Forall₂ sameExceptArchived db.posts (archivePost db id).posts ∧
    List.Forall₂ sameExceptArchived db.posts (unarchivePost db id).posts ∧
    getPostById (archivePost db id) id =
      (getPostById db id).map (fun p => { p with post_is_archived := true }) ∧
    getPostById (unarchivePost db id) id =
      (getPostById db id).map (fun p => { p with post_is_archived := false }) := by
  refine ⟨rfl, rfl, rfl, rfl, rfl, rfl, ?_, ?_, ?_, ?_⟩
  · exact forall₂_sameExceptArchived_map _ _ (by
      intro p
      by_cases hp : p.post_id = id <;> simp [sameExceptArchived, hp])
  · exact forall₂_sameExceptArchived_map _ _ (by
      intro p
      by_cases hp : p.post_id = id <;> simp [sameExceptArchived, hp])
  · simp only [getPostById, archivePost]
    exact find?_map_setArchived db.posts id true
  · simp only [getPostById, unarchivePost]
    exact find?_map_setArchived db.posts id false

/-- C10: `delPost` on an id matching no post does not fail: the posts
collection is untouched, no post is returned as deleted, any comments and
likes referencing the id are still removed, and the controller `deletePost`
reports success (200) rather than a not-found error. -/
theorem C10_delete_missing_post (db : DB) (pid : Nat)
    (h : ∀ p ∈ db.posts, p.post_id ≠ pid) :
    (delPost db pid).1 = none ∧
    (delPost db pid).2.posts = db.posts ∧
    (delPost db pid).2.comments =
      db.comments.filter (fun c => ¬ c.post_id = pid) ∧
    (delPost db pid).2.likes = db.likes.filter (fun l => ¬ l.post_id = pid) ∧
    (deletePostCtrl db pid).1 = 200 := by
  refine ⟨?_, ?_, rfl, rfl, rfl⟩
  · exact List.find?_eq_none.mpr (by simpa using h)
  · exact eraseFirstP_of_forall_not _ _ (by simpa using h)

/-- C10 witness: deleting post id 9, which does not exist, still removes the
orphaned comment and like that reference id 9, keeps the one real post, and
the controller answers 200. -/
theorem C10_delete_missing_post_witness :
    (delPost ⟨[], [⟨1, 1, "p", 0, false, 0, 0⟩], [⟨4, 9, 2, "c", 0⟩],
        [⟨5, 9, 2, 0⟩]⟩ 9).1 = none ∧
    (delPost ⟨[], [⟨1, 1, "p", 0, false, 0, 0⟩], [⟨4, 9, 2, "c", 0⟩],
        [⟨5, 9, 2, 0⟩]⟩ 9).2.posts = [⟨1, 1, "p", 0, false, 0, 0⟩] ∧
    (delPost ⟨[], [⟨1, 1, "p", 0, false, 0, 0⟩], [⟨4, 9, 2, "c", 0⟩],
        [⟨5, 9, 2, 0⟩]⟩ 9).2.comments =
      List.filter (fun c => ¬ c.post_id = 9) [⟨4, 9, 2, "c", 0⟩] ∧
    (delPost ⟨[], [⟨1, 1, "p", 0, false, 0, 0⟩], [⟨4, 9, 2, "c", 0⟩],
        [⟨5, 9, 2, 0⟩]⟩ 9).2.likes =
      List.filter (fun l => ¬ l.post_id = 9) [⟨5, 9, 2, 0⟩] ∧
    (deletePostCtrl ⟨[], [⟨1, 1, "p", 0, false, 0, 0⟩], [⟨4, 9, 2, "c", 0⟩],
        [⟨5, 9, 2, 0⟩]⟩ 9).1 = 200 :=
  C10_delete_missing_post _ 9 (by decide)

/-- Post ids pairwise distinct: no post with the erased id survives
`findByIdAndDelete`. -/
theorem eraseFirstP_post_no_match (ps : List Post) (id : Nat)
    (h : (ps.map Post.post_id).Nodup) :
    ∀ p ∈ eraseFirstP (fun p => p.post_id = id) ps, p.post_id ≠ id := by
  induction ps with
  | nil => simp [eraseFirstP]
  | cons q rest ih =>
    simp only [List.map_cons, List.nodup_cons] at h
    by_cases hq : q.post_id = id
    · have : eraseFirstP (fun p => decide (p.post_id = id)) (q :: rest) = rest := by
        simp [eraseFirstP, hq]
      rw [this]
      intro p hp hpid
      exact h.1 (by rw [hq, ← hpid]; exact List.mem_map_of_mem Post.post_id hp)
    · have : eraseFirstP (fun p => decide (p.post_id = id)) (q :: rest) =
        q :: eraseFirstP (fun p => decide (p.post_id = id)) rest := by
        simp [eraseFirstP, hq]
      rw [this]
      intro p hp
      rcases List.mem_cons.mp hp with rfl | hmem
      · exact hq
      · exact ih h.2 p hmem

/-- C5: `delPost` removes every comment and like whose `post_id` matches and
the post itself; every comment, like and post not referencing the id
survives untouched (in particular no surviving post's counters are
adjusted), users are untouched, and afterwards the post's comments are no
longer retrievable on any page. -/
theorem C5_delete_post_cascades (db : DB) (pid : Nat)
    (hn : postIdsNodup db) :
    (∀ c ∈ (delPost db pid).2.comments, c.post_id ≠ pid) ∧
    (∀ l ∈ (delPost db pid).2.likes, l.post_id ≠ pid) ∧
    (∀ p ∈ (delPost db pid).2.posts, p.post_id ≠ pid) ∧
    (∀ c ∈ db.comments, c.post_id ≠ pid → c ∈ (delPost db pid).2.comments) ∧
    (∀ l ∈ db.likes, l.post_id ≠ pid → l ∈ (delPost db pid).2.likes) ∧
    (∀ p ∈ db.posts, p.post_id ≠ pid → p ∈ (delPost db pid).2.posts) ∧
    (delPost db pid).2.users = db.users ∧
    (∀ page, getCommentsForPost (delPost db pid).2 pid page = []) := by
  refine ⟨?_, ?_, ?_, ?_, ?_, ?_, rfl, ?_⟩
  · intro c hc
    have := (List.mem_filter.mp hc).2
    simpa using this
  · intro l hl
    have := (List.mem_filter.mp hl).2
    simpa using this
  · exact eraseFirstP_post_no_match db.posts pid hn
  · intro c hc hne
    exact List.mem_filter.mpr ⟨hc, by simpa using hne⟩
  · intro l hl hne
    exact List.mem_filter.mpr ⟨hl, by simpa using hne⟩
  · intro p hp hne
    exact mem_eraseFirstP_of_not_pred _ _ p hp (by simpa using hne)
  · intro page
    have : (delPost db pid).2.comments.filter (fun c => c.post_id = pid) = [] := by
      refine List.filter_eq_nil_iff.mpr ?_
      intro c hc
      have := (List.mem_filter.mp hc).2
      simpa using this
    simp [getCommentsForPost, this, paginate]

/-- C5 witness: a post with a comment and a like, a second untouched post
with its own comment. -/
theorem C5_delete_post_cascades_witness :
    (∀ c ∈ (delPost ⟨[], [⟨1, 1, "a", 0, false, 1, 1⟩, ⟨2, 2, "b", 0, false, 0, 1⟩],
        [⟨4, 1, 2, "c", 0⟩, ⟨6, 2, 1, "d", 0⟩], [⟨5, 1, 2, 0⟩]⟩ 1).2.comments,
      c.post_id ≠ 1) ∧
    (∀ page, getCommentsForPost (delPost ⟨[],
        [⟨1, 1, "a", 0, false, 1, 1⟩, ⟨2, 2, "b", 0, false, 0, 1⟩],
        [⟨4, 1, 2, "c", 0⟩, ⟨6, 2, 1, "d", 0⟩], [⟨5, 1, 2, 0⟩]⟩ 1).2 1 page = []) :=
  ⟨(C5_delete_post_cascades _ 1 (by decide)).1,
   (C5_delete_post_cascades _ 1 (by decide)).2.2.2.2.2.2.2⟩

/-- The pagination contract on a collection of exactly 12 matching items:
page 1 is the first five, page 3 the last two, page 4 empty; in general page
p skips (p-1)*5 items and returns at most 5. -/
theorem paginate_twelve {α : Type} (l : List α) (h : l.length = 12) :
    paginate l 1 = l.take 5 ∧
    paginate l 3 = l.drop 10 ∧
    paginate l 4 = [] ∧
    (∀ page, paginate l page = (l.drop ((page - 1) * 5)).take 5) ∧
    (∀ page, (paginate l page).length ≤ 5) := by
  refine ⟨?_, ?_, ?_, fun page => rfl, fun page => List.length_take_le 5 _⟩
  · simp [paginate, itemsToFetch]
  · show (l.drop 10).take 5 = l.drop 10
    exact List.take_of_length_le (by simp [List.length_drop, h])
  · show (l.drop 15).take 5 = []
    rw [List.drop_eq_nil_of_le (by omega)]
    rfl

/-- C6: each paginated retrieval (`getCommentsForPost`, `getPostLikes`,
`getPostsByUserId`, `fetchPosts`) over a collection of exactly 12 matching
items returns items 1-5 for page 1, items 11-12 for page 3, and the empty
list (not an error) for page 4; page p always skips (p-1)*5 items of the
(for the feed: sorted) collection and returns at most 5. -/
theorem C6_pagination (db : DB) (pid uid : Nat)
    (hc : (db.comments.filter (fun c => c.post_id = pid)).length = 12)
    (hl : (db.likes.filter (fun l => l.post_id = pid)).length = 12)
    (hp : (db.posts.filter (fun p => p.post_owner_id = uid)).length = 12)
    (hf : db.posts.length = 12) :
    (getCommentsForPost db pid 1 =
        (db.comments.filter (fun c => c.post_id = pid)).take 5 ∧
      getCommentsForPost db pid 3 =
        (db.comments.filter (fun c => c.post_id = pid)).drop 10 ∧
      getCommentsForPost db pid 4 = [] ∧
      (∀ page, getCommentsForPost db pid page =
        ((db.comments.filter (fun c => c.post_id = pid)).drop
          ((page - 1) * 5)).take 5) ∧
      (∀ page, (getCommentsForPost db pid page).length ≤ 5)) ∧
    (getPostLikes db pid 1 =
        (db.likes.filter (fun l => l.post_id = pid)).take 5 ∧
      getPostLikes db pid 3 =
        (db.likes.filter (fun l => l.post_id = pid)).drop 10 ∧
      getPostLikes db pid 4 = [] ∧
      (∀ page, getPostLikes db pid page =
        ((db.likes.filter (fun l => l.post_id = pid)).drop
          ((page - 1) * 5)).take 5) ∧
      (∀ page, (getPostLikes db pid page).length ≤ 5)) ∧
    (getPostsByUserId db uid 1 =
        (db.posts.filter (fun p => p.post_owner_id = uid)).take 5 ∧
      getPostsByUserId db uid 3 =
        (db.posts.filter (fun p => p.post_owner_id = uid)).drop 10 ∧
      getPostsByUserId db uid 4 = [] ∧
      (∀ page, getPostsByUserId db uid page =
        ((db.posts.filter (fun p => p.post_owner_id = uid)).drop
          ((page - 1) * 5)).take 5) ∧
      (∀ page, (getPostsByUserId db uid page).length ≤ 5)) ∧
    (fetchPosts db 4 = [] ∧
      (∀ page, (fetchPosts db page).length ≤ 5) ∧
      (∀ page, (fetchPosts db page).map Prod.fst =
        paginate (List.insertionSort postTimeGE db.posts) page)) := by
  refine ⟨paginate_twelve _ hc, paginate_twelve _ hl, paginate_twelve _ hp,
    ?_, ?_, ?_⟩
  · have hlen : (List.insertionSort postTimeGE db.posts).length = 12 := by
      rw [(List.perm_insertionSort postTimeGE db.posts).length_eq, hf]
    rw [show fetchPosts db 4 =
      (paginate (List.insertionSort postTimeGE db.posts) 4).map
        (fun p => (p, db.users.find? (fun u => u.user_id = p.post_owner_id)))
      from rfl, (paginate_twelve _ hlen).2.2.1]
    rfl
  · intro page
    rw [show fetchPosts db page =
      (paginate (List.insertionSort postTimeGE db.posts) page).map
        (fun p => (p, db.users.find? (fun u => u.user_id = p.post_owner_id)))
      from rfl, List.length_map]
    exact List.length_take_le 5 _
  · intro page
    rw [show fetchPosts db page =
      (paginate (List.insertionSort postTimeGE db.posts) page).map
        (fun p => (p, db.users.find? (fun u => u.user_id = p.post_owner_id)))
      from rfl, List.map_map]
    exact List.map_id' _

/-- A store with 12 comments and 12 likes on post 1 and 12 posts owned by
user 2, for exercising the pagination contract. -/
def twelveDB : DB :=
  { users := []
    posts := (List.range 12).map (fun i => ⟨i + 1, 2, "p", i, false, 0, 0⟩)
    comments := (List.range 12).map (fun i => ⟨100 + i, 1, 2, "c", i⟩)
    likes := (List.range 12).map (fun i => ⟨200 + i, 1, 3 + i, i⟩) }

/-- C6 witness: on `twelveDB`, page 4 of each retrieval is empty and page 3
of the comments is the last two comments. -/
theorem C6_pagination_witness :
    getCommentsForPost twelveDB 1 4 = [] ∧
    getPostLikes twelveDB 1 4 = [] ∧
    getPostsByUserId twelveDB 2 4 = [] ∧
    getCommentsForPost twelveDB 1 3 =
      (twelveDB.comments.filter (fun c => c.post_id = 1)).drop 10 :=
  ⟨(C6_pagination twelveDB 1 2 (by decide) (by decide) (by decide)
      (by decide)).1.2.2.1,
   (C6_pagination twelveDB 1 2 (by decide) (by decide) (by decide)
      (by decide)).2.1.2.2.1,
   (C6_pagination twelveDB 1 2 (by decide) (by decide) (by decide)
      (by decide)).2.2.1.2.2.1,
   (C6_pagination twelveDB 1 2 (by decide) (by decide) (by decide)
      (by decide)).1.2.1⟩

/-- C7: a page parameter that is not a positive integer (for example 0 or
3/2) makes every paginated controller — `getFeed`, `getCommsForPost`,
`getLikesForPost`, `getPostByUsername` — answer the 400 `InvalidPage` error
before any storage access; being pure reads, they leave the store
untouched. -/
theorem C7_invalid_page (db : DB) (pid uid : Nat) (q : ℚ)
    (h : ¬ (q.den = 1 ∧ 0 < q)) :
    getFeed db q = .error .invalidPage ∧
    getCommsForPost db pid q = .error .invalidPage ∧
    getLikesForPost db pid q = .error .invalidPage ∧
    getPostByUsername db uid q = .error .invalidPage := by
  have hpage : pageOk q = false := by
    simp only [pageOk]
    exact decide_eq_false h
  refine ⟨?_, ?_, ?_, ?_⟩ <;>
    simp [getFeed, getCommsForPost, getLikesForPost, getPostByUsername, hpage]

/-- C7 witness: page 3/2 is rejected by all four controllers on a concrete
store that would otherwise serve results. -/
theorem C7_invalid_page_witness :
    getFeed ⟨[⟨1, "a", "f", "l", none, false⟩],
        [⟨1, 1, "p", 0, false, 0, 0⟩], [], []⟩ (3 / 2 : ℚ) =
      .error .invalidPage ∧
    getCommsForPost ⟨[⟨1, "a", "f", "l", none, false⟩],
        [⟨1, 1, "p", 0, false, 0, 0⟩], [], []⟩ 1 (3 / 2 : ℚ) =
      .error .invalidPage ∧
    getLikesForPost ⟨[⟨1, "a", "f", "l", none, false⟩],
        [⟨1, 1, "p", 0, false, 0, 0⟩], [], []⟩ 1 (3 / 2 : ℚ) =
      .error .invalidPage ∧
    getPostByUsername ⟨[⟨1, "a", "f", "l", none, false⟩],
        [⟨1, 1, "p", 0, false, 0, 0⟩], [], []⟩ 1 (3 / 2 : ℚ) =
      .error .invalidPage :=
  C7_invalid_page _ 1 1 (3 / 2 : ℚ) (by norm_num)

/-- An archived user 1 owning post 10, on which user 2 has placed one
comment and one like; user 1 authored no comments or likes. -/
def cascadeDB : DB :=
  { users := [⟨1, "alice", "A", "L", none, true⟩, ⟨2, "bob", "B", "M", none, false⟩]
    posts := [⟨10, 1, "post by alice", 0, false, 1, 1⟩]
    comments := [⟨100, 10, 2, "comment by bob", 0⟩]
    likes := [⟨200, 10, 2, 0⟩] }

/-- C1: `deleteProfile` on the archived user 1 reports success (200) and
deletes the user's post 10, but the comment and the like that user 2 placed
on post 10 remain in the store, each still referencing the now-deleted post
10 — the cascade the claim requires does not happen. -/
theorem C1_cascade_incomplete :
    deleteProfile cascadeDB 1 =
      some (⟨200, none⟩,
        { users := [⟨2, "bob", "B", "M", none, false⟩]
          posts := []
          comments := [⟨100, 10, 2, "comment by bob", 0⟩]
          likes := [⟨200, 10, 2, 0⟩] }) ∧
    (deleteAllPosts cascadeDB 1).posts.find? (fun p => p.post_id = 10) = none ∧
    (deleteAllPosts cascadeDB 1).comments.any (fun c => c.post_id = 10) = true ∧
    (deleteAllPosts cascadeDB 1).likes.any (fun l => l.post_id = 10) = true := by
  decide

/-! ## Comment-counter invariant (C2) -/

theorem incCommentCount_map_post_id (id : Nat) (d : Int) (ps : List Post) :
    (incCommentCount id d ps).map Post.post_id = ps.map Post.post_id := by
  induction ps with
  | nil => rfl
  | cons p rest ih =>
    by_cases hp : p.post_id = id <;> simp [incCommentCount, hp, ih]

/-- With pairwise-distinct post ids, bumping the first matching post is
bumping every matching post. -/
theorem incCommentCount_eq_map (id : Nat) (d : Int) (ps : List Post)
    (h : (ps.map Post.post_id).Nodup) :
    incCommentCount id d ps = ps.map (fun p =>
      if p.post_id = id then
        { p with post_comment_count := p.post_comment_count + d }
      else p) := by
  induction ps with
  | nil => rfl
  | cons p rest ih =>
    simp only [List.map_cons, List.nodup_cons] at h
    by_cases hp : p.post_id = id
    · simp only [incCommentCount, if_pos hp, List.map_cons]
      congr 1
      have hrest : ∀ r ∈ rest,
          (if r.post_id = id then
            { r with post_comment_count := r.post_comment_count + d }
          else r) = r := by
        intro r hr
        rw [if_neg]
        intro hrid
        exact h.1 (by rw [hp, ← hrid]; exact List.mem_map_of_mem Post.post_id hr)
      rw [List.map_congr_left hrest, List.map_id']
    · simp only [incCommentCount, if_neg hp, List.map_cons, ih h.2]

theorem find?_incCommentCount (id : Nat) (d : Int) (ps : List Post) (p : Post)
    (h : ps.find? (fun x => x.post_id = id) = some p) :
    (incCommentCount id d ps).find? (fun x => x.post_id = id) =
      some { p with post_comment_count := p.post_comment_count + d } := by
  induction ps with
  | nil => simp at h
  | cons x rest ih =>
    rw [List.find?_cons] at h
    by_cases hx : x.post_id = id
    · simp only [hx] at h
      simp only [decide_True, Option.some.injEq] at h
      subst h
      simp [incCommentCount, hx, List.find?_cons]
    · rw [decide_eq_false hx] at h
      simp [incCommentCount, hx, List.find?_cons, ih h]

/-- Erasing the comment found by `findOneAndDelete` shrinks the per-post
comment filters by exactly the erased comment's contribution. -/
theorem filter_length_eraseFirst_comment (l : List Comment) (id r : Nat)
    (c : Comment) (h : l.find? (fun x => x.comment_id = id) = some c) :
    (l.filter (fun x => x.post_id = r)).length =
      ((eraseFirstP (fun x => x.comment_id = id) l).filter
        (fun x => x.post_id = r)).length +
      (if c.post_id = r then 1 else 0) := by
  induction l with
  | nil => simp at h
  | cons x rest ih =>
    rw [List.find?_cons] at h
    by_cases hx : x.comment_id = id
    · simp only [hx] at h
      simp only [decide_True, Option.some.injEq] at h
      subst h
      have herase :
          eraseFirstP (fun y => decide (y.comment_id = id)) (x :: rest) = rest := by
        simp [eraseFirstP, hx]
      rw [herase]
      by_cases hxr : x.post_id = r <;> simp [List.filter_cons, hxr]
    · rw [decide_eq_false hx] at h
      have herase :
          eraseFirstP (fun y => decide (y.comment_id = id)) (x :: rest) =
            x :: eraseFirstP (fun y => decide (y.comment_id = id)) rest := by
        simp [eraseFirstP, hx]
      rw [herase]
      by_cases hxr : x.post_id = r <;>
        simp [List.filter_cons, hxr, ih h] <;> omega

theorem createNewComment_preserves (db : DB) (c : Comment)
    (hn : postIdsNodup db) (hc : commentCountsConsistent db) :
    postIdsNodup (createNewComment db c) ∧
    commentCountsConsistent (createNewComment db c) := by
  constructor
  · show ((incCommentCount c.post_id 1 db.posts).map Post.post_id).Nodup
    rw [incCommentCount_map_post_id]
    exact hn
  · intro q hq
    show q.post_comment_count = ((db.comments ++ [c]).filter
      (fun x => x.post_id = q.post_id)).length
    replace hq : q ∈ incCommentCount c.post_id 1 db.posts := hq
    rw [incCommentCount_eq_map _ _ _ hn] at hq
    obtain ⟨p, hp, rfl⟩ := List.mem_map.mp hq
    rw [List.filter_append, List.length_append]
    by_cases hpc : p.post_id = c.post_id
    · simp only [if_pos hpc]
      have hone : (List.filter (fun x => decide (x.post_id = p.post_id)) [c]).length = 1 := by
        simp [List.filter_cons, hpc.symm]
      simp only [hone]
      have := hc p hp
      push_cast
      omega
    · simp only [if_neg hpc]
      have hzero : (List.filter (fun x => decide (x.post_id = p.post_id)) [c]).length = 0 := by
        simp [List.filter_cons]
        intro hcp
        exact hpc (hcp.symm)
      simp only [hzero]
      have := hc p hp
      push_cast
      omega

theorem delComment_preserves (db : DB) (id : Nat)
    (hn : postIdsNodup db) (hc : commentCountsConsistent db) :
    postIdsNodup (delComment db id).2 ∧
    commentCountsConsistent (delComment db id).2 := by
  rcases hfind : db.comments.find? (fun x => x.comment_id = id) with _ | c
  · simp only [delComment, hfind]
    exact ⟨hn, hc⟩
  · have hsnd : (delComment db id).2 =
        { db with
            comments := eraseFirstP (fun x => x.comment_id = id) db.comments
            posts := incCommentCount c.post_id (-1) db.posts } := by
      simp only [delComment, hfind]
    rw [hsnd]
    constructor
    · show ((incCommentCount c.post_id (-1) db.posts).map Post.post_id).Nodup
      rw [incCommentCount_map_post_id]
      exact hn
    · intro q hq
      show q.post_comment_count = ((eraseFirstP (fun x => x.comment_id = id)
        db.comments).filter (fun x => x.post_id = q.post_id)).length
      replace hq : q ∈ incCommentCount c.post_id (-1) db.posts := hq
      rw [incCommentCount_eq_map _ _ _ hn] at hq
      obtain ⟨p, hp, rfl⟩ := List.mem_map.mp hq
      have hkey := filter_length_eraseFirst_comment db.comments id
        (if p.post_id = c.post_id then
          { p with post_comment_count := p.post_comment_count + (-1) }
        else p).post_id c hfind
      by_cases hpc : p.post_id = c.post_id
      · simp only [if_pos hpc] at hkey ⊢
        rw [if_pos (hpc ▸ rfl : c.post_id = p.post_id)] at hkey
        have := hc p hp
        omega
      · simp only [if_neg hpc] at hkey ⊢
        rw [if_neg (fun h => hpc (h.symm))] at hkey
        have := hc p hp
        omega

theorem applyCommentOp_preserves (db : DB) (op : CommentOp)
    (h : postIdsNodup db ∧ commentCountsConsistent db) :
    postIdsNodup (applyCommentOp db op) ∧
    commentCountsConsistent (applyCommentOp db op) := by
  cases op with
  | create c => exact createNewComment_preserves db c h.1 h.2
  | delete id => exact delComment_preserves db id h.1 h.2

theorem applyCommentOps_preserves (ops : List CommentOp) : ∀ db : DB,
    postIdsNodup db ∧ commentCountsConsistent db →
    postIdsNodup (applyCommentOps db ops) ∧
    commentCountsConsistent (applyCommentOps db ops) := by
  induction ops with
  | nil => exact fun db h => h
  | cons op rest ih =>
    intro db h
    exact ih (applyCommentOp db op) (applyCommentOp_preserves db op h)

/-- C2: starting from a consistent store, after any sequence of comment
creations and deletions every post's `post_comment_count` equals the number
of comment records referencing it (hence never negative); each creation
increments the parent post's counter by exactly 1; a deletion with an id
matching no comment is a complete no-op; and a deletion that found a
comment decrements the parent's counter by exactly 1. -/
theorem C2_comment_counter (db : DB)
    (hn : postIdsNodup db) (hc : commentCountsConsistent db) :
    (∀ ops, commentCountsConsistent (applyCommentOps db ops)) ∧
    (∀ ops, ∀ p ∈ (applyCommentOps db ops).posts, 0 ≤ p.post_comment_count) ∧
    (∀ c p, getPostById db c.post_id = some p →
      getPostById (createNewComment db c) c.post_id =
        some { p with post_comment_count := p.post_comment_count + 1 }) ∧
    (∀ id, db.comments.find? (fun x => x.comment_id = id) = none →
      delComment db id = (none, db)) ∧
    (∀ id c p, db.comments.find? (fun x => x.comment_id = id) = some c →
      getPostById db c.post_id = some p →
      getPostById (delComment db id).2 c.post_id =
        some { p with post_comment_count := p.post_comment_count - 1 }) := by
  refine ⟨?_, ?_, ?_, ?_, ?_⟩
  · exact fun ops => (applyCommentOps_preserves ops db ⟨hn, hc⟩).2
  · intro ops p hp
    rw [(applyCommentOps_preserves ops db ⟨hn, hc⟩).2 p hp]
    exact Int.natCast_nonneg _
  · intro c p hfind
    show (incCommentCount c.post_id 1 db.posts).find? _ = _
    exact find?_incCommentCount _ _ _ _ hfind
  · intro id hfind
    simp [delComment, hfind]
  · intro id c p hfc hfp
    have hposts : (delComment db id).2.posts =
        incCommentCount c.post_id (-1) db.posts := by
      simp only [delComment, hfc]
    show (delComment db id).2.posts.find? _ = _
    rw [hposts, find?_incCommentCount _ _ _ _ hfp]
    congr 1

/-- C2 witness: one post, one created then twice-deleted comment; the store
stays consistent throughout. -/
theorem C2_comment_counter_witness :
    commentCountsConsistent (applyCommentOps
      ⟨[], [⟨1, 1, "p", 0, false, 0, 0⟩], [], []⟩
      [CommentOp.create ⟨50, 1, 2, "hi", 0⟩, CommentOp.delete 50,
       CommentOp.delete 50]) :=
  (C2_comment_counter ⟨[], [⟨1, 1, "p", 0, false, 0, 0⟩], [], []⟩
    (by decide) (by decide)).1 _

/-! ## Global feed (C8) -/

/-- A formatted feed item faithfully denormalizes one post: it copies the
post's timestamp, counters, content and id, and carries the username and
profile picture of the user the post's `post_owner_id` resolves to. -/
def feedItemMatches (db : DB) (p : Post) (it : FeedItem) : Prop :=
  (∃ u, db.users.find? (fun x => x.user_id = p.post_owner_id) = some u ∧
    it.username = u.username ∧ it.profilePic = u.profile_picture) ∧
  it.timestamp = p.post_timestamp ∧
  it.likeCount = p.post_like_count ∧
  it.commentCount = p.post_comment_count ∧
  it.content = p.post_content ∧
  it.id = p.post_id

theorem formatPosts_ok (db : DB) (l : List Post)
    (h : ∀ p ∈ l,
      (db.users.find? (fun u => u.user_id = p.post_owner_id)).isSome) :
    ∃ items,
      formatPosts (l.map (fun p =>
        (p, db.users.find? (fun u => u.user_id = p.post_owner_id)))) =
          some items ∧
      List.Forall₂ (feedItemMatches db) l items := by
  induction l with
  | nil => exact ⟨[], rfl, List.Forall₂.nil⟩
  | cons p rest ih =>
    obtain ⟨u, hu⟩ := Option.isSome_iff_exists.mp (h p (by simp))
    obtain ⟨items, hitems, hfa⟩ := ih (fun x hx => h x (by simp [hx]))
    refine ⟨⟨u.username, u.profile_picture, p.post_timestamp,
      p.post_like_count, p.post_comment_count, p.post_content,
      p.post_id⟩ :: items, ?_, ?_⟩
    · simp only [List.map_cons, hu, formatPosts, hitems]
      rfl
    · exact List.Forall₂.cons
        ⟨⟨u, hu, rfl, rfl⟩, rfl, rfl, rfl, rfl, rfl⟩ hfa

/-- C8: for a valid page q, the feed returned by `getFeed` is exactly the
page-q slice (5 items per page) of the posts ordered by `post_timestamp`
descending — the order is a sorted permutation of the whole posts
collection — and each returned item denormalizes the owning user's username
and profile picture along with the post's own fields. -/
theorem C8_feed (db : DB) (q : ℚ) (hq : pageOk q = true)
    (howner : ∀ p ∈ db.posts,
      (db.users.find? (fun u => u.user_id = p.post_owner_id)).isSome) :
    List.Perm (List.insertionSort postTimeGE db.posts) db.posts ∧
    List.Sorted postTimeGE (List.insertionSort postTimeGE db.posts) ∧
    ∃ items, getFeed db q = .ok items ∧
      List.Forall₂ (feedItemMatches db)
        (paginate (List.insertionSort postTimeGE db.posts) (pageNat q)) items := by
  refine ⟨List.perm_insertionSort postTimeGE db.posts,
    List.sorted_insertionSort postTimeGE db.posts, ?_⟩
  have hmem : ∀ p ∈ paginate (List.insertionSort postTimeGE db.posts)
      (pageNat q), (db.users.find? (fun u => u.user_id = p.post_owner_id)).isSome := by
    intro p hp
    exact howner p ((List.mem_insertionSort postTimeGE).mp
      (List.mem_of_mem_drop (List.mem_of_mem_take hp)))
  obtain ⟨items, hitems, hfa⟩ := formatPosts_ok db
    (paginate (List.insertionSort postTimeGE db.posts) (pageNat q)) hmem
  refine ⟨items, ?_, hfa⟩
  unfold getFeed
  rw [if_pos hq]
  show (match formatPosts (fetchPosts db (pageNat q)) with
    | none => Except.error CtrlError.serverError
    | some items => Except.ok items) = Except.ok items
  rw [show fetchPosts db (pageNat q) =
    (paginate (List.insertionSort postTimeGE db.posts) (pageNat q)).map
      (fun p => (p, db.users.find? (fun u => u.user_id = p.post_owner_id)))
    from rfl, hitems]

/-- C8 witness: two posts owned by user 1, page 1 of the feed; the later
post comes first. -/
theorem C8_feed_witness :
    ∃ items, getFeed ⟨[⟨1, "a", "f", "l", some "pic", false⟩],
      [⟨1, 1, "older", 5, false, 0, 0⟩, ⟨2, 1, "newer", 9, false, 0, 0⟩],
      [], []⟩ (1 : ℚ) = .ok items ∧
      List.Forall₂ (feedItemMatches ⟨[⟨1, "a", "f", "l", some "pic", false⟩],
        [⟨1, 1, "older", 5, false, 0, 0⟩, ⟨2, 1, "newer", 9, false, 0, 0⟩],
        [], []⟩)
        (paginate (List.insertionSort postTimeGE
          [⟨1, 1, "older", 5, false, 0, 0⟩, ⟨2, 1, "newer", 9, false, 0, 0⟩])
          (pageNat (1 : ℚ))) items :=
  (C8_feed ⟨[⟨1, "a", "f", "l", some "pic", false⟩],
      [⟨1, 1, "older", 5, false, 0, 0⟩, ⟨2, 1, "newer", 9, false, 0, 0⟩],
      [], []⟩ (1 : ℚ) (by decide) (by decide)).2.2
